import Mathlib

/-!
Shallow embedding of the real-time alert delivery subsystem of the
sw-alert-system repository, together with proofs of its specified
properties.

Embedded source files:
* src/services/websocket.service.ts (the authenticated variant):
  the per-instance session registry (a JS Map from deviceId to
  a record holding the WebSocket handle and the client-claimed IP),
  the token authentication gate run on connection, the registration
  message handler, the close handler, the heartbeat sweep, and
  sendAlertToLocalClients (the fan-out over local sessions).
* src/api/controllers/alert.controller.ts: triggerAlert, the publish
  gateway that validates the request body and publishes one envelope
  per valid target IP to the Redis bus.

Modelling conventions:
* WebSocket handles are identified by natural numbers; the mutable
  per-connection state (readyState, isAlive, terminated) lives in a
  function from handle to a Conn record.
* The JS Map is modelled as an association list with JS Map semantics:
  set replaces the value in place when the key is present (keeping the
  insertion position) and appends otherwise; iteration follows list
  order, which matches JS Map insertion-order iteration.
* Side effects performed by handlers (sending a frame, closing or
  terminating a connection, pinging) are reified as an Effect list
  returned by each handler; applyEffect gives their action on the
  per-connection state.
* JSON values reaching triggerAlert via req.body are modelled by the
  JsValue type with JS truthiness; absent fields are JsValue.undefined.
  Registration frames follow the declared client message interface
  (string fields); an absent string field is modelled as "", which is
  falsy exactly like an absent field under the truthiness checks the
  handler performs before any use of the field.
* The Redis bus is an oracle busOk : Nat -> Bool giving the outcome of
  the k-th publish call of a request; a false entry models the publish
  promise rejecting (bus unreachable).
* The Mongo upsert performed during registration is an oracle Bool;
  false models Device.findOneAndUpdate rejecting (store unavailable).
-/

namespace AlertSys

/-- readyState value WebSocket.OPEN from the ws library. -/
def wsOPEN : Nat := 1

/-- readyState value WebSocket.CLOSED from the ws library. -/
def wsCLOSED : Nat := 3

/-- Mutable per-connection state: readyState of the socket, the isAlive
heartbeat flag (websocket.service.ts line 67), and whether terminate was
called on the socket. -/
structure Conn where
  readyState : Nat
  isAlive : Bool
  terminated : Bool
deriving DecidableEq, Repr

/-- Value stored in the clients Map: the WebSocket handle and the
client-provided IP (websocket.service.ts line 24). -/
structure ClientData where
  ws : Nat
  ip : String
deriving DecidableEq, Repr

/-- The per-instance clients Map, as an insertion-ordered association
list from deviceId to ClientData (websocket.service.ts line 24). -/
abbrev Registry := List (String × ClientData)

/-- Keys of the registry are pairwise distinct: the defining invariant
of a JS Map. -/
def nodupKeys (m : Registry) : Prop := (m.map Prod.fst).Nodup

/-- JS Map.set semantics: replace in place when the key is present,
append otherwise. Embeds clients.set(deviceId, { ws, ip })
(websocket.service.ts line 86). -/
def mapSet (m : Registry) (k : String) (v : ClientData) : Registry :=
  match m with
  | [] => [(k, v)]
  | (k', v') :: rest =>
    if k' = k then (k, v) :: rest else (k', v') :: mapSet rest k v

/-- JS Map.get semantics. -/
def mapGet (m : Registry) (k : String) : Option ClientData :=
  match m with
  | [] => none
  | (k', v) :: rest => if k' = k then some v else mapGet rest k

/-- Close handler of a connection (websocket.service.ts lines 106-114):
scan the registry in iteration order, delete the first entry whose
stored handle is the closed socket, then break. -/
def wsClose (w : Nat) (m : Registry) : Registry :=
  match m with
  | [] => []
  | (d, cd) :: rest =>
    if cd.ws = w then rest else (d, cd) :: wsClose w rest

/-- Number of registry entries whose stored handle is w. -/
def countWs (w : Nat) (m : Registry) : Nat :=
  (m.filter (fun e => e.2.ws == w)).length

/-- Number of registry entries registered under deviceId k. -/
def countKey (k : String) (m : Registry) : Nat :=
  (m.filter (fun e => e.1 == k)).length

/-- The address-match criterion clientData.ip === targetIp used by
sendAlertToLocalClients (websocket.service.ts line 158), as a registry
query: all sessions whose claimed address equals the queried address. -/
def lookupByAddress (a : String) (m : Registry) : Registry :=
  m.filter (fun e => e.2.ip == a)

/-- JSON values as seen by the Express handlers. NaN is omitted (no code
path in the embedded handlers produces it). Object values other than
arrays are collapsed into one constructor: the handlers only ever test
their truthiness. -/
inductive JsValue where
  | undefined : JsValue
  | null : JsValue
  | bool (b : Bool) : JsValue
  | num (n : Int) : JsValue
  | str (s : String) : JsValue
  | arr (xs : List JsValue) : JsValue
  | obj : JsValue

/-- JS truthiness of a value, as used by the ! and && operators in the
validation checks. -/
def truthy : JsValue → Bool
  | .undefined => false
  | .null => false
  | .bool b => b
  | .num n => n != 0
  | .str s => s != ""
  | .arr _ => true
  | .obj => true

/-- Array.isArray. -/
def isArray : JsValue → Bool
  | .arr _ => true
  | _ => false

/-- Elements of an array value; unreachable arm for non-arrays (the code
only reads length after Array.isArray succeeded). -/
def arrItems : JsValue → List JsValue
  | .arr xs => xs
  | _ => []

/-- The alertPayload object built by triggerAlert
(alert.controller.ts lines 20-25). -/
structure AlertPayload where
  type : String
  title : JsValue
  message : JsValue
  timestamp : String

/-- The redisMessage published per target: target IP paired with the
payload (alert.controller.ts lines 33-36). -/
structure AlertEnvelope where
  targetIp : String
  payload : AlertPayload

/-- The fields of req.body read by triggerAlert. -/
structure TriggerReq where
  ips : JsValue
  message : JsValue
  title : JsValue

/-- HTTP outcome of triggerAlert: 400 validation failure, 200 success
carrying the published count, or 500 internal error. -/
inductive HttpResult where
  | badRequest : HttpResult
  | ok (publishedCount : Nat) : HttpResult
  | serverError : HttpResult
deriving DecidableEq, Repr

/-- Payload construction (alert.controller.ts lines 20-25); now is the
ISO timestamp taken at request time. -/
def mkPayload (req : TriggerReq) (now : String) : AlertPayload :=
  { type := "alert"
  , title := if truthy req.title then req.title else .str "EMERGENCY ALERT"
  , message := req.message
  , timestamp := now }

/-- The per-element guard of the publish loop: typeof targetIp ===
string and targetIp.length > 0 (alert.controller.ts line 31). -/
def validIp : JsValue → Option String
  | .str s => if s.length > 0 then some s else none
  | _ => none

/-- The valid targets of an ips array, in order. -/
def validTargets (xs : List JsValue) : List String :=
  xs.filterMap validIp

/-- The publish loop of triggerAlert (alert.controller.ts lines 30-43).
k counts publish calls already made; returns the envelopes published, in
order, and false when a publish rejected (which aborts the loop and is
caught by the surrounding try). -/
def publishLoop (busOk : Nat → Bool) (payload : AlertPayload) :
    Nat → List JsValue → List AlertEnvelope × Bool
  | _, [] => ([], true)
  | k, x :: rest =>
    match validIp x with
    | some s =>
      if busOk k then
        let r := publishLoop busOk payload (k + 1) rest
        (⟨s, payload⟩ :: r.1, r.2)
      else ([], false)
    | none => publishLoop busOk payload k rest

/-- triggerAlert (alert.controller.ts lines 8-53): validate the body,
then publish one envelope per valid target, aborting on the first bus
failure. Returns the HTTP outcome and the envelopes actually published. -/
def triggerAlert (busOk : Nat → Bool) (now : String) (req : TriggerReq) :
    HttpResult × List AlertEnvelope :=
  if !truthy req.ips || !isArray req.ips
      || (arrItems req.ips).length == 0 || !truthy req.message then
    (.badRequest, [])
  else
    let payload := mkPayload req now
    let r := publishLoop busOk payload 0 (arrItems req.ips)
    if r.2 then (.ok r.1.length, r.1) else (.serverError, r.1)

/-- Frames the server can send to a client. -/
inductive WireMsg where
  | registered : WireMsg
  | alert (p : AlertPayload) : WireMsg

/-- Reified side effects of the connection handlers. -/
inductive Effect where
  | send (w : Nat) (m : WireMsg) : Effect
  | close (w : Nat) (code : Nat) : Effect
  | terminate (w : Nat) : Effect
  | ping (w : Nat) : Effect

/-- Whether the effect closes or terminates a connection. -/
def Effect.isDisruptive : Effect → Bool
  | .close _ _ => true
  | .terminate _ => true
  | _ => false

/-- Action of one effect on the per-connection state. -/
def applyEffect (e : Effect) (conns : Nat → Conn) : Nat → Conn :=
  match e with
  | .send _ _ => conns
  | .ping _ => conns
  | .close w _ => fun x =>
      if x = w then { conns x with readyState := wsCLOSED } else conns x
  | .terminate w => fun x =>
      if x = w then { conns x with readyState := wsCLOSED, terminated := true }
      else conns x

/-- Action of an effect list, first to last. -/
def applyEffects (effs : List Effect) (conns : Nat → Conn) : Nat → Conn :=
  effs.foldl (fun cs e => applyEffect e cs) conns

/-- The authentication gate run at the top of the connection handler
(websocket.service.ts lines 34-57): token is the token query parameter
when present, verify embeds jwt.verify against JWT_SECRET (true when
verification does not throw). Returns the registry (never touched in
this phase), the effects, and whether the handler proceeded to install
the message, close and error listeners (it returns early otherwise). -/
def wsConnection (verify : String → Bool) (w : Nat) (token : Option String)
    (clients : Registry) : Registry × List Effect × Bool :=
  match token with
  | none => (clients, [.close w 4001], false)
  | some t =>
    if verify t then (clients, [], true)
    else (clients, [.close w 4003], false)

/-- A parsed client frame, per the declared client message interface
with string fields; an absent field is "", which is falsy exactly like
an absent field under the truthiness guards below. -/
structure ClientMsg where
  type : String
  deviceId : String
  ip : String
deriving DecidableEq, Repr

/-- The message handler of an authenticated connection
(websocket.service.ts lines 74-104): on a register frame with truthy
deviceId and ip, set the registry entry, then await the Mongo upsert
(outcome upsertOk), and only then send the registered ack. When the
upsert rejects, the surrounding catch logs the error and the ack send is
never reached. Any other frame is logged and ignored. -/
def wsMessage (upsertOk : Bool) (w : Nat) (data : ClientMsg)
    (clients : Registry) : Registry × List Effect :=
  if data.type == "register" && data.deviceId != "" && data.ip != "" then
    let clients2 := mapSet clients data.deviceId ⟨w, data.ip⟩
    if upsertOk then (clients2, [.send w .registered])
    else (clients2, [])
  else (clients, [])

/-- One heartbeat sweep step on one connection (websocket.service.ts
lines 121-129): an unanswered ping (isAlive false) terminates the
socket; otherwise clear isAlive and ping. Returns the new state and
whether a ping was sent. -/
def sweepConn (c : Conn) : Conn × Bool :=
  if c.isAlive = false then
    ({ c with terminated := true, readyState := wsCLOSED }, false)
  else
    ({ c with isAlive := false }, true)

/-- The pong listener (websocket.service.ts lines 68-71). -/
def pongHandler (c : Conn) : Conn := { c with isAlive := true }

/-- One heartbeat period for one connection: the sweep runs, then the
client answers the ping with a pong before the next sweep iff respond.
A terminated connection has left wss.clients and is no longer swept. -/
def stepPeriod (respond : Bool) (c : Conn) : Conn :=
  if c.terminated then c
  else
    let c1 := (sweepConn c).1
    if respond && !c1.terminated then pongHandler c1 else c1

/-- n heartbeat periods with a constant response behaviour. -/
def runSweeps (respond : Bool) : Nat → Conn → Conn
  | 0, c => c
  | n + 1, c => runSweeps respond n (stepPeriod respond c)

/-- sendAlertToLocalClients (websocket.service.ts lines 155-166):
iterate the registry in order and send the payload on every entry whose
claimed IP equals the target and whose socket is OPEN. The payload type
is abstract (the code forwards an arbitrary parsed value). Returns the
send records: deviceId of the entry, handle written to, value sent. -/
def sendAlertToLocalClients {α : Type} (conns : Nat → Conn)
    (targetIp : String) (payload : α) : Registry → List (String × Nat × α)
  | [] => []
  | (deviceId, clientData) :: rest =>
    if clientData.ip == targetIp
        && (conns clientData.ws).readyState == wsOPEN then
      (deviceId, clientData.ws, payload)
        :: sendAlertToLocalClients conns targetIp payload rest
    else
      sendAlertToLocalClients conns targetIp payload rest

/-! Helper lemmas about the registry operations. -/

theorem mapSet_self_mem (m : Registry) (k : String) (v : ClientData) :
    (k, v) ∈ mapSet m k v := by
  induction m with
  | nil => simp [mapSet]
  | cons e rest ih =>
    obtain ⟨k', v'⟩ := e
    by_cases hk : k' = k <;> simp [mapSet, hk, ih]

theorem keys_mapSet_sub {m : Registry} {k x : String} {v : ClientData}
    (h : ∃ y, (x, y) ∈ mapSet m k v) :
    (∃ y, (x, y) ∈ m) ∨ x = k := by
  obtain ⟨y, hy⟩ := h
  induction m generalizing y with
  | nil =>
    simp [mapSet] at hy
    exact Or.inr hy.1
  | cons e rest ih =>
    obtain ⟨k', v'⟩ := e
    by_cases hk : k' = k
    · rw [show mapSet ((k', v') :: rest) k v = (k, v) :: rest from by
        simp [mapSet, hk]] at hy
      rcases List.mem_cons.mp hy with h | h
      · exact Or.inr (congrArg Prod.fst h)
      · exact Or.inl ⟨y, List.mem_cons_of_mem _ h⟩
    · rw [show mapSet ((k', v') :: rest) k v = (k', v') :: mapSet rest k v
        from by simp [mapSet, hk]] at hy
      rcases List.mem_cons.mp hy with h | h
      · exact Or.inl ⟨v', by rw [show x = k' from congrArg Prod.fst h]; simp⟩
      · rcases ih y h with ⟨y', hy'⟩ | h'
        · exact Or.inl ⟨y', List.mem_cons_of_mem _ hy'⟩
        · exact Or.inr h'

theorem nodupKeys_mapSet {m : Registry} (k : String) (v : ClientData)
    (h : nodupKeys m) : nodupKeys (mapSet m k v) := by
  induction m with
  | nil => simp [nodupKeys, mapSet]
  | cons e rest ih =>
    obtain ⟨k', v'⟩ := e
    unfold nodupKeys at h
    rw [List.map_cons, List.nodup_cons] at h
    by_cases hk : k' = k
    · rw [show mapSet ((k', v') :: rest) k v = (k, v) :: rest from by
        simp [mapSet, hk]]
      unfold nodupKeys
      rw [List.map_cons, List.nodup_cons]
      rw [← hk]
      exact h
    · have h2 := ih h.2
      rw [show mapSet ((k', v') :: rest) k v = (k', v') :: mapSet rest k v
        from by simp [mapSet, hk]]
      unfold nodupKeys
      rw [List.map_cons, List.nodup_cons]
      refine ⟨fun hx => ?_, h2⟩
      rw [List.mem_map] at hx
      obtain ⟨⟨x1, x2⟩, hmem, hfst⟩ := hx
      have hx1 : x1 = (k', v').1 := hfst
      rw [hx1] at hmem
      rcases keys_mapSet_sub ⟨x2, hmem⟩ with ⟨y, hy⟩ | h'
      · have hmm := List.mem_map_of_mem Prod.fst hy
        exact h.1 hmm
      · exact hk h'

theorem mem_mapSet {m : Registry} {k : String} {v : ClientData}
    {e : String × ClientData} (hN : nodupKeys m) (h : e ∈ mapSet m k v) :
    e = (k, v) ∨ (e ∈ m ∧ e.1 ≠ k) := by
  induction m with
  | nil =>
    simp [mapSet] at h
    exact Or.inl h
  | cons hd rest ih =>
    obtain ⟨k', v'⟩ := hd
    unfold nodupKeys at hN
    rw [List.map_cons, List.nodup_cons] at hN
    by_cases hk : k' = k
    · rw [show mapSet ((k', v') :: rest) k v = (k, v) :: rest from by
        simp [mapSet, hk]] at h
      rcases List.mem_cons.mp h with h | h
      · exact Or.inl h
      · refine Or.inr ⟨List.mem_cons_of_mem _ h, fun hek => hN.1 ?_⟩
        have := List.mem_map_of_mem Prod.fst h
        rwa [hek, ← hk] at this
    · rw [show mapSet ((k', v') :: rest) k v = (k', v') :: mapSet rest k v
        from by simp [mapSet, hk]] at h
      rcases List.mem_cons.mp h with h | h
      · refine Or.inr ⟨by rw [h]; simp, ?_⟩
        rw [show e.1 = k' from congrArg Prod.fst h]
        exact hk
      · rcases ih hN.2 h with h' | h'
        · exact Or.inl h'
        · exact Or.inr ⟨List.mem_cons_of_mem _ h'.1, h'.2⟩

theorem mapGet_mapSet_self (m : Registry) (k : String) (v : ClientData) :
    mapGet (mapSet m k v) k = some v := by
  induction m with
  | nil => simp [mapSet, mapGet]
  | cons e rest ih =>
    obtain ⟨k', v'⟩ := e
    by_cases hk : k' = k <;> simp [mapSet, mapGet, hk, ih]

theorem filter_ne_mapSet (m : Registry) (k : String) (v : ClientData) :
    (mapSet m k v).filter (fun e => !(e.1 == k))
      = m.filter (fun e => !(e.1 == k)) := by
  induction m with
  | nil => simp [mapSet]
  | cons e rest ih =>
    obtain ⟨k', v'⟩ := e
    by_cases hk : k' = k <;> simp [mapSet, hk, ih]

theorem length_mapSet_of_get {m : Registry} {k : String} {cd : ClientData}
    (v : ClientData) (h : mapGet m k = some cd) :
    (mapSet m k v).length = m.length := by
  induction m with
  | nil => simp [mapGet] at h
  | cons e rest ih =>
    obtain ⟨k', v'⟩ := e
    by_cases hk : k' = k
    · simp [mapSet, hk]
    · simp [mapGet, hk] at h
      simp [mapSet, hk, ih h]

theorem entry_unique {m : Registry} {e e' : String × ClientData}
    (hN : nodupKeys m) (h : e ∈ m) (h' : e' ∈ m) (hk : e.1 = e'.1) :
    e = e' := by
  induction m with
  | nil => simp at h
  | cons hd rest ih =>
    unfold nodupKeys at hN
    rw [List.map_cons, List.nodup_cons] at hN
    rcases List.mem_cons.mp h with h | h <;>
      rcases List.mem_cons.mp h' with h' | h'
    · rw [h, h']
    · exfalso
      apply hN.1
      have := List.mem_map_of_mem Prod.fst h'
      rwa [← hk, h] at this
    · exfalso
      apply hN.1
      have := List.mem_map_of_mem Prod.fst h
      rwa [hk, h'] at this
    · exact ih hN.2 h h'

theorem filter_key_nil {m : Registry} {k : String}
    (h : k ∉ m.map Prod.fst) :
    m.filter (fun e => e.1 == k) = [] := by
  induction m with
  | nil => rfl
  | cons e rest ih =>
    rw [List.map_cons, List.mem_cons] at h
    push_neg at h
    have hek : (e.1 == k) = false := by
      rw [beq_eq_false_iff_ne]
      exact fun hc => h.1 hc.symm
    simp only [List.filter, hek]
    exact ih h.2

theorem filter_key_of_mem {m : Registry} {k : String} {v : ClientData}
    (hN : nodupKeys m) (h : (k, v) ∈ m) :
    m.filter (fun e => e.1 == k) = [(k, v)] := by
  induction m with
  | nil => simp at h
  | cons e rest ih =>
    unfold nodupKeys at hN
    rw [List.map_cons, List.nodup_cons] at hN
    rcases List.mem_cons.mp h with h | h
    · have hk : k ∉ rest.map Prod.fst := by
        have := hN.1
        rwa [show e.1 = k from by rw [← h]] at this
      rw [← h]
      simp only [List.filter, beq_self_eq_true]
      rw [filter_key_nil hk]
    · have hek : (e.1 == k) = false := by
        rw [beq_eq_false_iff_ne]
        intro hc
        apply hN.1
        have := List.mem_map_of_mem Prod.fst h
        rwa [← hc] at this
      simp only [List.filter, hek]
      exact ih hN.2 h

theorem countKey_of_mem {m : Registry} {k : String} {v : ClientData}
    (hN : nodupKeys m) (h : (k, v) ∈ m) : countKey k m = 1 := by
  simp [countKey, filter_key_of_mem hN h]

theorem countWs_wsClose (w : Nat) (m : Registry) :
    countWs w (wsClose w m) = countWs w m - 1 := by
  induction m with
  | nil => rfl
  | cons e rest ih =>
    obtain ⟨d, cd⟩ := e
    by_cases hw : cd.ws = w
    · have hb : ((d, cd).2.ws == w) = true := beq_iff_eq.mpr hw
      rw [show wsClose w ((d, cd) :: rest) = rest from by simp [wsClose, hw]]
      unfold countWs
      rw [List.filter_cons_of_pos (p := fun (e : String × ClientData) => e.2.ws == w) hb]
      simp
    · have hb : ¬((d, cd).2.ws == w) = true := by simp [hw]
      rw [show wsClose w ((d, cd) :: rest) = (d, cd) :: wsClose w rest from by
        simp [wsClose, hw]]
      unfold countWs
      rw [List.filter_cons_of_neg (p := fun (e : String × ClientData) => e.2.ws == w) hb,
        List.filter_cons_of_neg (p := fun (e : String × ClientData) => e.2.ws == w) hb]
      exact ih

theorem length_wsClose (w : Nat) (m : Registry) :
    m.length ≤ (wsClose w m).length + 1 := by
  induction m with
  | nil => simp [wsClose]
  | cons e rest ih =>
    obtain ⟨d, cd⟩ := e
    by_cases hw : cd.ws = w
    · simp [wsClose, hw]
    · simp [wsClose, hw]
      omega

theorem wsClose_first (w : Nat) (pre suf : Registry) (d : String)
    (cd : ClientData) (hw : cd.ws = w) (hpre : ∀ e ∈ pre, e.2.ws ≠ w) :
    wsClose w (pre ++ (d, cd) :: suf) = pre ++ suf := by
  induction pre with
  | nil => simp [wsClose, hw]
  | cons e rest ih =>
    have he : e.2.ws ≠ w := hpre e (by simp)
    simp [wsClose, he, ih (fun x hx => hpre x (by simp [hx]))]

theorem sendAlert_eq {α : Type} (conns : Nat → Conn) (a : String) (p : α)
    (m : Registry) :
    sendAlertToLocalClients conns a p m
      = (m.filter (fun e => e.2.ip == a
          && (conns e.2.ws).readyState == wsOPEN)).map
          (fun e => (e.1, e.2.ws, p)) := by
  induction m with
  | nil => rfl
  | cons e rest ih =>
    obtain ⟨d, cd⟩ := e
    cases hc : (cd.ip == a && (conns cd.ws).readyState == wsOPEN) <;>
      simp [sendAlertToLocalClients, List.filter_cons, hc, ih]

theorem nodupKeys_filter (m : Registry) (q : String × ClientData → Bool)
    (hN : nodupKeys m) : ((m.filter q).map Prod.fst).Nodup :=
  hN.sublist ((m.filter_sublist).map Prod.fst)

theorem publishLoop_ok (busOk : Nat → Bool) (p : AlertPayload)
    (h : ∀ i, busOk i = true) :
    ∀ (xs : List JsValue) (k : Nat),
      publishLoop busOk p k xs
        = ((validTargets xs).map (fun s => ⟨s, p⟩), true) := by
  intro xs
  induction xs with
  | nil => intro k; rfl
  | cons x rest ih =>
    intro k
    cases hv : validIp x with
    | none =>
      simp [publishLoop, hv, validTargets, List.filterMap_cons, ih k]
    | some s =>
      simp [publishLoop, hv, h k, validTargets, List.filterMap_cons, ih (k + 1)]

theorem publishLoop_fail (busOk : Nat → Bool) (p : AlertPayload) :
    ∀ (xs : List JsValue) (k j : Nat),
      (∀ i, i < j → busOk (k + i) = true) → busOk (k + j) = false →
      j < (validTargets xs).length →
      publishLoop busOk p k xs
        = (((validTargets xs).take j).map (fun s => ⟨s, p⟩), false) := by
  intro xs
  induction xs with
  | nil =>
    intro k j h1 h2 h3
    simp [validTargets] at h3
  | cons x rest ih =>
    intro k j h1 h2 h3
    cases hv : validIp x with
    | none =>
      have h3' : j < (validTargets rest).length := by
        simpa [validTargets, List.filterMap_cons, hv] using h3
      simp [publishLoop, hv, validTargets, List.filterMap_cons,
        ih k j h1 h2 h3']
    | some s =>
      cases j with
      | zero =>
        have hb : busOk k = false := by simpa using h2
        simp [publishLoop, hv, hb, validTargets, List.filterMap_cons]
      | succ j' =>
        have hb : busOk k = true := by simpa using h1 0 (Nat.succ_pos j')
        have h1' : ∀ i, i < j' → busOk (k + 1 + i) = true := by
          intro i hi
          have hh := h1 (i + 1) (Nat.succ_lt_succ hi)
          have he : k + (i + 1) = k + 1 + i := by omega
          rwa [he] at hh
        have h2' : busOk (k + 1 + j') = false := by
          have he : k + 1 + j' = k + (j' + 1) := by omega
          rw [he]
          exact h2
        have h3' : j' < (validTargets rest).length := by
          have hl : (validTargets (x :: rest)).length
              = (validTargets rest).length + 1 := by
            simp [validTargets, List.filterMap_cons, hv]
          omega
        simp [publishLoop, hv, hb, validTargets, List.filterMap_cons,
          ih (k + 1) j' h1' h2' h3']

/-! Claim theorems. -/

/-- C10: the close handler removes at most one registry entry per close
event: it deletes the first entry whose stored handle matches the closed
connection and stops scanning. Hence countWs drops by exactly one (so a
handle registered under two distinct device identifiers leaves exactly
one stale entry referencing it after its close event), and the registry
shrinks by at most one entry. -/
theorem close_handler_removes_first_match (w : Nat) (m pre suf : Registry)
    (d : String) (cd : ClientData)
    (hsplit : m = pre ++ (d, cd) :: suf) (hw : cd.ws = w)
    (hpre : ∀ e ∈ pre, e.2.ws ≠ w) :
    wsClose w m = pre ++ suf ∧
    countWs w (wsClose w m) = countWs w m - 1 ∧
    m.length ≤ (wsClose w m).length + 1 := by
  subst hsplit
  exact ⟨wsClose_first w pre suf d cd hw hpre, countWs_wsClose w _,
    length_wsClose w _⟩

theorem close_handler_removes_first_match_witness :
    ([("d1", ClientData.mk 5 "a"), ("d2", ClientData.mk 5 "b")] : Registry)
      = [] ++ ("d1", ClientData.mk 5 "a") :: [("d2", ClientData.mk 5 "b")] ∧
    (ClientData.mk 5 "a").ws = 5 ∧
    (∀ e ∈ ([] : Registry), e.2.ws ≠ 5) ∧
    (wsClose 5 [("d1", ClientData.mk 5 "a"), ("d2", ClientData.mk 5 "b")]
        = [] ++ [("d2", ClientData.mk 5 "b")] ∧
      countWs 5 (wsClose 5
          [("d1", ClientData.mk 5 "a"), ("d2", ClientData.mk 5 "b")])
        = countWs 5 [("d1", ClientData.mk 5 "a"), ("d2", ClientData.mk 5 "b")]
            - 1 ∧
      ([("d1", ClientData.mk 5 "a"), ("d2", ClientData.mk 5 "b")] :
          Registry).length
        ≤ (wsClose 5 [("d1", ClientData.mk 5 "a"),
            ("d2", ClientData.mk 5 "b")]).length + 1) :=
  ⟨rfl, rfl, by simp,
    close_handler_removes_first_match 5 _ [] _ "d1" _ rfl rfl (by simp)⟩

/-- C4: a trigger request whose target list is absent, not an array, or
empty, or whose message is missing, fails with the client-input
validation error (HTTP 400) and publishes no envelope to the bus. -/
theorem trigger_validation_rejects (busOk : Nat → Bool) (now : String)
    (req : TriggerReq)
    (h : req.ips = .undefined ∨ isArray req.ips = false
        ∨ arrItems req.ips = [] ∨ req.message = .undefined) :
    triggerAlert busOk now req = (.badRequest, []) := by
  rcases h with h | h | h | h
  · simp [triggerAlert, h, truthy]
  · simp [triggerAlert, h]
  · simp [triggerAlert, h]
  · simp [triggerAlert, h, truthy]

theorem trigger_validation_rejects_witness :
    ((TriggerReq.mk (.arr []) (.str "x") .undefined).ips = .undefined
      ∨ isArray (TriggerReq.mk (.arr []) (.str "x") .undefined).ips = false
      ∨ arrItems (TriggerReq.mk (.arr []) (.str "x") .undefined).ips = []
      ∨ (TriggerReq.mk (.arr []) (.str "x") .undefined).message
          = .undefined) ∧
    triggerAlert (fun _ => true) "t"
      (TriggerReq.mk (.arr []) (.str "x") .undefined) = (.badRequest, []) :=
  ⟨Or.inr (Or.inr (Or.inl rfl)),
    trigger_validation_rejects (fun _ => true) "t" _
      (Or.inr (Or.inr (Or.inl rfl)))⟩

/-- C2: a connection with a missing credential is closed immediately
with code 4001, and one with an invalid credential with the distinct
code 4003; in both cases the message listener is never installed (so no
registration message is ever processed and no Session is created) and
the registry is left unchanged. -/
theorem auth_failure_rejects (verify : String → Bool) (w : Nat)
    (token : Option String) (m : Registry)
    (h : token = none ∨ ∃ t, token = some t ∧ verify t = false) :
    (wsConnection verify w token m).1 = m ∧
    (wsConnection verify w token m).2.2 = false ∧
    (token = none →
      (wsConnection verify w token m).2.1 = [.close w 4001]) ∧
    ((∃ t, token = some t ∧ verify t = false) →
      (wsConnection verify w token m).2.1 = [.close w 4003]) ∧
    (4001 : Nat) ≠ 4003 := by
  rcases h with h | ⟨t, ht, hv⟩
  · subst h
    refine ⟨rfl, rfl, fun _ => rfl, ?_, by decide⟩
    rintro ⟨t, ht, _⟩
    exact absurd ht (by simp)
  · subst ht
    refine ⟨by simp [wsConnection, hv], by simp [wsConnection, hv],
      ?_, fun _ => by simp [wsConnection, hv], by decide⟩
    intro hnone
    exact absurd hnone (by simp)

theorem auth_failure_rejects_witness :
    ((some "tok" : Option String) = none
      ∨ ∃ t, (some "tok" : Option String) = some t
          ∧ (fun (_ : String) => false) t = false) ∧
    ((wsConnection (fun _ => false) 9 (some "tok") []).1 = [] ∧
      (wsConnection (fun _ => false) 9 (some "tok") []).2.2 = false ∧
      ((some "tok" : Option String) = none →
        (wsConnection (fun _ => false) 9 (some "tok") []).2.1
          = [.close 9 4001]) ∧
      ((∃ t, (some "tok" : Option String) = some t
          ∧ (fun (_ : String) => false) t = false) →
        (wsConnection (fun _ => false) 9 (some "tok") []).2.1
          = [.close 9 4003]) ∧
      (4001 : Nat) ≠ 4003) :=
  ⟨Or.inr ⟨"tok", rfl, rfl⟩,
    auth_failure_rejects (fun _ => false) 9 (some "tok") []
      (Or.inr ⟨"tok", rfl, rfl⟩)⟩

/-- C3: a heartbeat sweep terminates a connection whose liveness flag is
false (previous ping unanswered) without pinging it, and otherwise
clears the flag and sends a ping; consequently a connection that never
answers is terminated within two sweep periods (and the close handler
then removes its registry entry), while a connection that answers every
ping is never terminated by the sweep. -/
theorem heartbeat_liveness (c : Conn) (hT : c.terminated = false) :
    (c.isAlive = false →
      (sweepConn c).1.terminated = true ∧ (sweepConn c).2 = false) ∧
    (c.isAlive = true →
      (sweepConn c).1.isAlive = false ∧ (sweepConn c).2 = true ∧
        (sweepConn c).1.terminated = false) ∧
    (runSweeps false 2 c).terminated = true ∧
    (c.isAlive = true → ∀ n, (runSweeps true n c).terminated = false) ∧
    (∀ (w : Nat) (m : Registry), countWs w m = 1 →
      countWs w (wsClose w m) = 0) := by
  obtain ⟨rs, al, tm⟩ := c
  subst hT
  have hcount : ∀ (w : Nat) (m : Registry), countWs w m = 1 →
      countWs w (wsClose w m) = 0 := by
    intro w m h
    rw [countWs_wsClose, h]
  cases al
  · refine ⟨fun _ => by simp [sweepConn], fun h => by simp at h, ?_,
      fun h => by simp at h, hcount⟩
    simp [runSweeps, stepPeriod, sweepConn]
  · have hstep : stepPeriod true (Conn.mk rs true false)
        = Conn.mk rs true false := by
      simp [stepPeriod, sweepConn, pongHandler]
    refine ⟨fun h => by simp at h,
      fun _ => by simp [sweepConn], ?_, fun _ n => ?_, hcount⟩
    · simp [runSweeps, stepPeriod, sweepConn, pongHandler]
    · induction n with
      | zero => rfl
      | succ k ih =>
        have : runSweeps true (k + 1) (Conn.mk rs true false)
            = runSweeps true k (Conn.mk rs true false) := by
          rw [show runSweeps true (k + 1) (Conn.mk rs true false)
              = runSweeps true k (stepPeriod true (Conn.mk rs true false))
            from rfl, hstep]
        rw [this]
        exact ih

theorem heartbeat_liveness_witness :
    (Conn.mk 1 true false).terminated = false ∧
    (((Conn.mk 1 true false).isAlive = false →
        (sweepConn (Conn.mk 1 true false)).1.terminated = true ∧
          (sweepConn (Conn.mk 1 true false)).2 = false) ∧
      ((Conn.mk 1 true false).isAlive = true →
        (sweepConn (Conn.mk 1 true false)).1.isAlive = false ∧
          (sweepConn (Conn.mk 1 true false)).2 = true ∧
          (sweepConn (Conn.mk 1 true false)).1.terminated = false) ∧
      (runSweeps false 2 (Conn.mk 1 true false)).terminated = true ∧
      ((Conn.mk 1 true false).isAlive = true →
        ∀ n, (runSweeps true n (Conn.mk 1 true false)).terminated
          = false) ∧
      (∀ (w : Nat) (m : Registry), countWs w m = 1 →
        countWs w (wsClose w m) = 0)) :=
  ⟨rfl, heartbeat_liveness (Conn.mk 1 true false) rfl⟩

/-- C5: when the j-th bus publish of a validated trigger request
rejects, the gateway publishes nothing for the remaining targets (the
loop aborts), answers with the internal server error, and the envelopes
already published (the first j valid targets) stay published — they are
not rolled back. -/
theorem trigger_partial_failure (busOk : Nat → Bool) (now : String)
    (req : TriggerReq) (j : Nat)
    (h1 : truthy req.ips = true) (h2 : isArray req.ips = true)
    (h3 : (arrItems req.ips).length ≠ 0) (h4 : truthy req.message = true)
    (h5 : ∀ i, i < j → busOk i = true) (h6 : busOk j = false)
    (h7 : j < (validTargets (arrItems req.ips)).length) :
    triggerAlert busOk now req
      = (.serverError,
         ((validTargets (arrItems req.ips)).take j).map
           (fun s => ⟨s, mkPayload req now⟩)) := by
  have hv := publishLoop_fail busOk (mkPayload req now) (arrItems req.ips) 0 j
    (fun i hi => by simpa using h5 i hi) (by simpa using h6) h7
  simp [triggerAlert, h1, h2, h3, h4, hv]

theorem trigger_partial_failure_witness :
    truthy (TriggerReq.mk (.arr [.str "a", .str "b"]) (.str "m")
        .undefined).ips = true ∧
    isArray (TriggerReq.mk (.arr [.str "a", .str "b"]) (.str "m")
        .undefined).ips = true ∧
    (arrItems (TriggerReq.mk (.arr [.str "a", .str "b"]) (.str "m")
        .undefined).ips).length ≠ 0 ∧
    truthy (TriggerReq.mk (.arr [.str "a", .str "b"]) (.str "m")
        .undefined).message = true ∧
    (∀ i, i < 1 → (fun k => k == 0) i = true) ∧
    (fun k => k == 0) 1 = false ∧
    1 < (validTargets (arrItems (TriggerReq.mk
        (.arr [.str "a", .str "b"]) (.str "m") .undefined).ips)).length ∧
    triggerAlert (fun k => k == 0) "t"
        (TriggerReq.mk (.arr [.str "a", .str "b"]) (.str "m") .undefined)
      = (.serverError,
         ((validTargets (arrItems (TriggerReq.mk
             (.arr [.str "a", .str "b"]) (.str "m") .undefined).ips)).take
            1).map
           (fun s => ⟨s, mkPayload (TriggerReq.mk
              (.arr [.str "a", .str "b"]) (.str "m") .undefined) "t"⟩)) :=
  ⟨rfl, rfl, by decide, rfl, by decide, rfl, by decide,
    trigger_partial_failure (fun k => k == 0) "t" _ 1 rfl rfl (by decide)
      rfl (by decide) rfl (by decide)⟩

/-- C7: for a validated trigger request on a healthy bus the gateway
publishes exactly one envelope per valid target (non-empty string) of
the list, in order; every published envelope carries the freshly built
payload whose timestamp is the request time; and the success response
reports exactly the number of envelopes published. -/
theorem trigger_publishes_per_target (busOk : Nat → Bool) (now : String)
    (req : TriggerReq)
    (h1 : truthy req.ips = true) (h2 : isArray req.ips = true)
    (h3 : (arrItems req.ips).length ≠ 0) (h4 : truthy req.message = true)
    (h5 : ∀ i, busOk i = true) :
    triggerAlert busOk now req
      = (.ok (validTargets (arrItems req.ips)).length,
         (validTargets (arrItems req.ips)).map
           (fun s => ⟨s, mkPayload req now⟩)) ∧
    (∀ env ∈ (triggerAlert busOk now req).2,
      env.payload = mkPayload req now ∧ env.payload.timestamp = now) ∧
    (triggerAlert busOk now req).2.length
      = (validTargets (arrItems req.ips)).length := by
  have hv := publishLoop_ok busOk (mkPayload req now) h5 (arrItems req.ips) 0
  have hmain : triggerAlert busOk now req
      = (.ok (validTargets (arrItems req.ips)).length,
         (validTargets (arrItems req.ips)).map
           (fun s => ⟨s, mkPayload req now⟩)) := by
    simp [triggerAlert, h1, h2, h3, h4, hv]
  refine ⟨hmain, ?_, by rw [hmain]; simp⟩
  rw [hmain]
  intro env henv
  rw [List.mem_map] at henv
  obtain ⟨s, _, rfl⟩ := henv
  exact ⟨rfl, rfl⟩

theorem trigger_publishes_per_target_witness :
    truthy (TriggerReq.mk (.arr [.str "10.0.0.5", .num 3, .str ""])
        (.str "evac now") .undefined).ips = true ∧
    isArray (TriggerReq.mk (.arr [.str "10.0.0.5", .num 3, .str ""])
        (.str "evac now") .undefined).ips = true ∧
    (arrItems (TriggerReq.mk (.arr [.str "10.0.0.5", .num 3, .str ""])
        (.str "evac now") .undefined).ips).length ≠ 0 ∧
    truthy (TriggerReq.mk (.arr [.str "10.0.0.5", .num 3, .str ""])
        (.str "evac now") .undefined).message = true ∧
    (∀ i, (fun (_ : Nat) => true) i = true) ∧
    (triggerAlert (fun _ => true) "t"
        (TriggerReq.mk (.arr [.str "10.0.0.5", .num 3, .str ""])
          (.str "evac now") .undefined)
      = (.ok (validTargets (arrItems (TriggerReq.mk
            (.arr [.str "10.0.0.5", .num 3, .str ""]) (.str "evac now")
            .undefined).ips)).length,
         (validTargets (arrItems (TriggerReq.mk
            (.arr [.str "10.0.0.5", .num 3, .str ""]) (.str "evac now")
            .undefined).ips)).map
           (fun s => ⟨s, mkPayload (TriggerReq.mk
              (.arr [.str "10.0.0.5", .num 3, .str ""]) (.str "evac now")
              .undefined) "t"⟩)) ∧
      (∀ env ∈ (triggerAlert (fun _ => true) "t"
          (TriggerReq.mk (.arr [.str "10.0.0.5", .num 3, .str ""])
            (.str "evac now") .undefined)).2,
        env.payload = mkPayload (TriggerReq.mk
            (.arr [.str "10.0.0.5", .num 3, .str ""]) (.str "evac now")
            .undefined) "t" ∧
          env.payload.timestamp = "t") ∧
      (triggerAlert (fun _ => true) "t"
          (TriggerReq.mk (.arr [.str "10.0.0.5", .num 3, .str ""])
            (.str "evac now") .undefined)).2.length
        = (validTargets (arrItems (TriggerReq.mk
            (.arr [.str "10.0.0.5", .num 3, .str ""]) (.str "evac now")
            .undefined).ips)).length) :=
  ⟨rfl, rfl, by decide, rfl, fun _ => rfl,
    trigger_publishes_per_target (fun _ => true) "t" _ rfl rfl (by decide)
      rfl (fun _ => rfl)⟩

/-- C6 as stated is refuted at a concrete input: when the directory
upsert fails during an otherwise valid registration, the session is
stored in the registry but the effect list is empty, so the client does
NOT receive the registered acknowledgment (the upsert is awaited before
the ack send, and its rejection jumps to the catch block). -/
theorem upsert_failure_ack_counterexample :
    (wsMessage false 1 (ClientMsg.mk "register" "d1" "10.0.0.5") []).1
      = [("d1", ClientData.mk 1 "10.0.0.5")] ∧
    (wsMessage false 1 (ClientMsg.mk "register" "d1" "10.0.0.5") []).2
      = [] := by
  constructor <;> simp [wsMessage, mapSet]

/-- C6 amended: for an accepted registration whose directory upsert
fails, the failure is only logged in the sense that the session stays
registered, no close or terminate is issued and no connection state
changes — but the registration-confirmed acknowledgment is NOT sent to
the client; the ack is sent exactly when the upsert succeeds. -/
theorem upsert_failure_registration_amended (upsertOk : Bool) (w : Nat)
    (data : ClientMsg) (m : Registry) (conns : Nat → Conn)
    (h1 : data.type = "register") (h2 : data.deviceId ≠ "")
    (h3 : data.ip ≠ "") :
    (wsMessage upsertOk w data m).1
      = mapSet m data.deviceId (ClientData.mk w data.ip) ∧
    mapGet (wsMessage upsertOk w data m).1 data.deviceId
      = some (ClientData.mk w data.ip) ∧
    (∀ e ∈ (wsMessage upsertOk w data m).2, e.isDisruptive = false) ∧
    applyEffects (wsMessage upsertOk w data m).2 conns = conns ∧
    (upsertOk = false → (wsMessage upsertOk w data m).2 = []) ∧
    (upsertOk = true →
      (wsMessage upsertOk w data m).2 = [.send w .registered]) := by
  have hw : wsMessage upsertOk w data m
      = (mapSet m data.deviceId (ClientData.mk w data.ip),
         if upsertOk then [.send w .registered] else []) := by
    cases upsertOk <;> simp [wsMessage, h1, h2, h3]
  rw [hw]
  cases upsertOk
  · exact ⟨rfl, mapGet_mapSet_self m _ _, by simp, rfl,
      fun _ => rfl, fun h => by simp at h⟩
  · exact ⟨rfl, mapGet_mapSet_self m _ _,
      by simp [Effect.isDisruptive], rfl,
      fun h => by simp at h, fun _ => rfl⟩

theorem upsert_failure_registration_amended_witness :
    (ClientMsg.mk "register" "d1" "10.0.0.5").type = "register" ∧
    (ClientMsg.mk "register" "d1" "10.0.0.5").deviceId ≠ "" ∧
    (ClientMsg.mk "register" "d1" "10.0.0.5").ip ≠ "" ∧
    ((wsMessage false 1 (ClientMsg.mk "register" "d1" "10.0.0.5") []).1
        = mapSet [] "d1" (ClientData.mk 1 "10.0.0.5") ∧
      mapGet (wsMessage false 1
          (ClientMsg.mk "register" "d1" "10.0.0.5") []).1 "d1"
        = some (ClientData.mk 1 "10.0.0.5") ∧
      (∀ e ∈ (wsMessage false 1
          (ClientMsg.mk "register" "d1" "10.0.0.5") []).2,
        e.isDisruptive = false) ∧
      applyEffects (wsMessage false 1
          (ClientMsg.mk "register" "d1" "10.0.0.5") []).2
          (fun _ => Conn.mk 1 true false)
        = (fun _ => Conn.mk 1 true false) ∧
      (false = false →
        (wsMessage false 1
            (ClientMsg.mk "register" "d1" "10.0.0.5") []).2 = []) ∧
      (false = true →
        (wsMessage false 1
            (ClientMsg.mk "register" "d1" "10.0.0.5") []).2
          = [.send 1 .registered])) :=
  ⟨rfl, by decide, by decide,
    upsert_failure_registration_amended false 1 _ [] _ rfl (by decide)
      (by decide)⟩

/-- C9: when register runs for a deviceId that already has a live entry,
only that registry entry is replaced: the new data is stored under the
id, all other entries are untouched (same entries in the same order),
the registry size is unchanged, and the operation emits no close or
terminate effect, leaving every connection — including the replaced
one — in its previous open/closed state. -/
theorem register_replaces_only_own_entry (upsertOk : Bool) (w : Nat)
    (data : ClientMsg) (m : Registry) (conns : Nat → Conn)
    (old : ClientData)
    (h1 : data.type = "register") (h2 : data.deviceId ≠ "")
    (h3 : data.ip ≠ "") (hold : mapGet m data.deviceId = some old) :
    mapGet (wsMessage upsertOk w data m).1 data.deviceId
      = some (ClientData.mk w data.ip) ∧
    (wsMessage upsertOk w data m).1.filter
        (fun e => !(e.1 == data.deviceId))
      = m.filter (fun e => !(e.1 == data.deviceId)) ∧
    (wsMessage upsertOk w data m).1.length = m.length ∧
    (∀ e ∈ (wsMessage upsertOk w data m).2, e.isDisruptive = false) ∧
    applyEffects (wsMessage upsertOk w data m).2 conns = conns := by
  have hreg : (wsMessage upsertOk w data m).1
      = mapSet m data.deviceId (ClientData.mk w data.ip) := by
    cases upsertOk <;> simp [wsMessage, h1, h2, h3]
  have heff : (wsMessage upsertOk w data m).2
      = if upsertOk then [.send w .registered] else [] := by
    cases upsertOk <;> simp [wsMessage, h1, h2, h3]
  rw [hreg, heff]
  refine ⟨mapGet_mapSet_self m _ _, filter_ne_mapSet m _ _,
    length_mapSet_of_get _ hold, ?_, ?_⟩
  · cases upsertOk <;> simp [Effect.isDisruptive]
  · cases upsertOk <;> rfl

theorem register_replaces_only_own_entry_witness :
    (ClientMsg.mk "register" "d1" "10.0.0.7").type = "register" ∧
    (ClientMsg.mk "register" "d1" "10.0.0.7").deviceId ≠ "" ∧
    (ClientMsg.mk "register" "d1" "10.0.0.7").ip ≠ "" ∧
    mapGet [("d1", ClientData.mk 1 "10.0.0.5"),
        ("d2", ClientData.mk 2 "9.9.9.9")] "d1"
      = some (ClientData.mk 1 "10.0.0.5") ∧
    (mapGet (wsMessage true 8 (ClientMsg.mk "register" "d1" "10.0.0.7")
          [("d1", ClientData.mk 1 "10.0.0.5"),
           ("d2", ClientData.mk 2 "9.9.9.9")]).1 "d1"
        = some (ClientData.mk 8 "10.0.0.7") ∧
      (wsMessage true 8 (ClientMsg.mk "register" "d1" "10.0.0.7")
          [("d1", ClientData.mk 1 "10.0.0.5"),
           ("d2", ClientData.mk 2 "9.9.9.9")]).1.filter
          (fun e => !(e.1 == "d1"))
        = ([("d1", ClientData.mk 1 "10.0.0.5"),
            ("d2", ClientData.mk 2 "9.9.9.9")] : Registry).filter
          (fun e => !(e.1 == "d1")) ∧
      (wsMessage true 8 (ClientMsg.mk "register" "d1" "10.0.0.7")
          [("d1", ClientData.mk 1 "10.0.0.5"),
           ("d2", ClientData.mk 2 "9.9.9.9")]).1.length
        = ([("d1", ClientData.mk 1 "10.0.0.5"),
            ("d2", ClientData.mk 2 "9.9.9.9")] : Registry).length ∧
      (∀ e ∈ (wsMessage true 8 (ClientMsg.mk "register" "d1" "10.0.0.7")
          [("d1", ClientData.mk 1 "10.0.0.5"),
           ("d2", ClientData.mk 2 "9.9.9.9")]).2,
        e.isDisruptive = false) ∧
      applyEffects (wsMessage true 8
          (ClientMsg.mk "register" "d1" "10.0.0.7")
          [("d1", ClientData.mk 1 "10.0.0.5"),
           ("d2", ClientData.mk 2 "9.9.9.9")]).2
          (fun _ => Conn.mk 1 true false)
        = (fun _ => Conn.mk 1 true false)) :=
  ⟨rfl, by decide, by decide, by simp [mapGet],
    register_replaces_only_own_entry true 8 _ _ _
      (ClientData.mk 1 "10.0.0.5") rfl (by decide)
      (by decide) (by simp [mapGet])⟩

/-- Registry component of the registration handler for a valid register
frame: clients.set runs on both upsert outcomes. -/
theorem wsMessage_registry (u : Bool) (w : Nat) (data : ClientMsg)
    (m : Registry)
    (h1 : data.type = "register") (h2 : data.deviceId ≠ "")
    (h3 : data.ip ≠ "") :
    (wsMessage u w data m).1
      = mapSet m data.deviceId (ClientData.mk w data.ip) := by
  cases u <;> simp [wsMessage, h1, h2, h3]

/-- C8: registering device d with address A1 and then re-registering it
with a different address A2 on the same instance leaves the d entry
bound to A2: an address lookup for A1 matches no entry of d, a lookup
for A2 matches the d entry, and the registry keeps at most one live
session per device identifier (d has exactly one entry). -/
theorem reregistration_rebinds_address (m : Registry) (d a1 a2 : String)
    (w1 w2 : Nat) (u1 u2 : Bool)
    (hN : nodupKeys m) (hd : d ≠ "") (ha1 : a1 ≠ "") (ha2 : a2 ≠ "")
    (hne : a1 ≠ a2) :
    mapGet (wsMessage u2 w2 (ClientMsg.mk "register" d a2)
        (wsMessage u1 w1 (ClientMsg.mk "register" d a1) m).1).1 d
      = some (ClientData.mk w2 a2) ∧
    (∀ e ∈ lookupByAddress a1
        (wsMessage u2 w2 (ClientMsg.mk "register" d a2)
          (wsMessage u1 w1 (ClientMsg.mk "register" d a1) m).1).1,
      e.1 ≠ d) ∧
    (d, ClientData.mk w2 a2) ∈ lookupByAddress a2
        (wsMessage u2 w2 (ClientMsg.mk "register" d a2)
          (wsMessage u1 w1 (ClientMsg.mk "register" d a1) m).1).1 ∧
    nodupKeys (wsMessage u2 w2 (ClientMsg.mk "register" d a2)
        (wsMessage u1 w1 (ClientMsg.mk "register" d a1) m).1).1 ∧
    countKey d (wsMessage u2 w2 (ClientMsg.mk "register" d a2)
        (wsMessage u1 w1 (ClientMsg.mk "register" d a1) m).1).1 = 1 := by
  have e1 : (wsMessage u1 w1 (ClientMsg.mk "register" d a1) m).1
      = mapSet m d (ClientData.mk w1 a1) :=
    wsMessage_registry u1 w1 _ m rfl hd ha1
  have e2 : (wsMessage u2 w2 (ClientMsg.mk "register" d a2)
        (wsMessage u1 w1 (ClientMsg.mk "register" d a1) m).1).1
      = mapSet (mapSet m d (ClientData.mk w1 a1)) d (ClientData.mk w2 a2) := by
    rw [← e1]
    exact wsMessage_registry u2 w2 _ _ rfl hd ha2
  rw [e2]
  have hN1 : nodupKeys (mapSet m d (ClientData.mk w1 a1)) :=
    nodupKeys_mapSet d _ hN
  have hN2 : nodupKeys
      (mapSet (mapSet m d (ClientData.mk w1 a1)) d (ClientData.mk w2 a2)) :=
    nodupKeys_mapSet d _ hN1
  have hmem : (d, ClientData.mk w2 a2)
      ∈ mapSet (mapSet m d (ClientData.mk w1 a1)) d (ClientData.mk w2 a2) :=
    mapSet_self_mem _ d _
  refine ⟨mapGet_mapSet_self _ _ _, ?_, ?_, hN2, countKey_of_mem hN2 hmem⟩
  · intro e he hed
    rw [lookupByAddress, List.mem_filter] at he
    have hip : e.2.ip = a1 := by
      have := he.2
      rwa [beq_iff_eq] at this
    rcases mem_mapSet hN1 he.1 with h | h
    · apply hne
      rw [← hip, h]
    · exact h.2 hed
  · rw [lookupByAddress, List.mem_filter]
    exact ⟨hmem, by simp⟩

theorem reregistration_rebinds_address_witness :
    nodupKeys [("d9", ClientData.mk 4 "7.7.7.7")] ∧
    ("d1" : String) ≠ "" ∧ ("10.0.0.1" : String) ≠ "" ∧
    ("10.0.0.2" : String) ≠ "" ∧ ("10.0.0.1" : String) ≠ "10.0.0.2" ∧
    (mapGet (wsMessage true 2 (ClientMsg.mk "register" "d1" "10.0.0.2")
        (wsMessage true 1 (ClientMsg.mk "register" "d1" "10.0.0.1")
          [("d9", ClientData.mk 4 "7.7.7.7")]).1).1 "d1"
        = some (ClientData.mk 2 "10.0.0.2") ∧
      (∀ e ∈ lookupByAddress "10.0.0.1"
          (wsMessage true 2 (ClientMsg.mk "register" "d1" "10.0.0.2")
            (wsMessage true 1 (ClientMsg.mk "register" "d1" "10.0.0.1")
              [("d9", ClientData.mk 4 "7.7.7.7")]).1).1,
        e.1 ≠ "d1") ∧
      ("d1", ClientData.mk 2 "10.0.0.2") ∈ lookupByAddress "10.0.0.2"
          (wsMessage true 2 (ClientMsg.mk "register" "d1" "10.0.0.2")
            (wsMessage true 1 (ClientMsg.mk "register" "d1" "10.0.0.1")
              [("d9", ClientData.mk 4 "7.7.7.7")]).1).1 ∧
      nodupKeys (wsMessage true 2 (ClientMsg.mk "register" "d1" "10.0.0.2")
          (wsMessage true 1 (ClientMsg.mk "register" "d1" "10.0.0.1")
            [("d9", ClientData.mk 4 "7.7.7.7")]).1).1 ∧
      countKey "d1" (wsMessage true 2
          (ClientMsg.mk "register" "d1" "10.0.0.2")
          (wsMessage true 1 (ClientMsg.mk "register" "d1" "10.0.0.1")
            [("d9", ClientData.mk 4 "7.7.7.7")]).1).1 = 1) :=
  ⟨by simp [nodupKeys], by decide, by decide, by decide, by decide,
    reregistration_rebinds_address [("d9", ClientData.mk 4 "7.7.7.7")]
      "d1" "10.0.0.1" "10.0.0.2" 1 2 true true (by simp [nodupKeys])
      (by decide) (by decide) (by decide) (by decide)⟩

/-- A duplicate-free list counts each of its members exactly once. -/
theorem count_one_of_mem_nodup {β : Type} [BEq β] [LawfulBEq β]
    {l : List β} {x : β} (hn : l.Nodup) (hm : x ∈ l) : l.count x = 1 := by
  induction l with
  | nil => simp at hm
  | cons y ys ih =>
    rw [List.nodup_cons] at hn
    rcases List.mem_cons.mp hm with h | h
    · subst h
      rw [List.count_cons_self, List.count_eq_zero.mpr hn.1]
    · have hne : x ≠ y := fun hc => hn.1 (hc ▸ h)
      rw [List.count_cons_of_ne hne]
      exact ih hn.2 h

/-- C1: for an envelope with target address a, the fan-out sends the
envelope payload exactly once to each registered session whose claimed
address equals a and whose connection is OPEN, sends nothing to any
session with a different claimed address or a connection that is not
open (closed sessions are skipped, with no retry), and every send
carries the envelope payload itself. -/
theorem fanout_exactly_once {α : Type} [DecidableEq α] (conns : Nat → Conn)
    (m : Registry) (a : String) (payload : α) (hN : nodupKeys m) :
    (∀ e ∈ m, e.2.ip = a → (conns e.2.ws).readyState = wsOPEN →
      (sendAlertToLocalClients conns a payload m).count
        (e.1, e.2.ws, payload) = 1) ∧
    (∀ e ∈ m, (e.2.ip ≠ a ∨ (conns e.2.ws).readyState ≠ wsOPEN) →
      ∀ s ∈ sendAlertToLocalClients conns a payload m, s.1 ≠ e.1) ∧
    (∀ s ∈ sendAlertToLocalClients conns a payload m,
      s.2.2 = payload) := by
  have hs := sendAlert_eq conns a payload m
  have hnodup : (sendAlertToLocalClients conns a payload m).Nodup := by
    rw [hs]
    apply List.Nodup.of_map (fun (t : String × Nat × α) => t.1)
    rw [List.map_map]
    exact nodupKeys_filter m _ hN
  refine ⟨?_, ?_, ?_⟩
  · intro e he hip hop
    apply count_one_of_mem_nodup hnodup
    rw [hs, List.mem_map]
    refine ⟨e, List.mem_filter.mpr ⟨he, by simp [hip, hop]⟩, rfl⟩
  · intro e he hbad s hsend heq
    rw [hs, List.mem_map] at hsend
    obtain ⟨x, hxF, hxs⟩ := hsend
    rw [List.mem_filter] at hxF
    have hx1 : x.1 = e.1 := by rw [← heq, ← hxs]
    have hxe : x = e := entry_unique hN hxF.1 he hx1
    have hq := hxF.2
    rw [hxe] at hq
    simp only [Bool.and_eq_true, beq_iff_eq] at hq
    rcases hbad with hb | hb
    · exact hb hq.1
    · exact hb hq.2
  · intro s hsend
    rw [hs, List.mem_map] at hsend
    obtain ⟨x, _, hxs⟩ := hsend
    rw [← hxs]

theorem fanout_exactly_once_witness :
    nodupKeys [("d1", ClientData.mk 1 "10.0.0.5"),
        ("d2", ClientData.mk 2 "9.9.9.9"),
        ("d3", ClientData.mk 3 "10.0.0.5")] ∧
    ((∀ e ∈ ([("d1", ClientData.mk 1 "10.0.0.5"),
          ("d2", ClientData.mk 2 "9.9.9.9"),
          ("d3", ClientData.mk 3 "10.0.0.5")] : Registry),
        e.2.ip = "10.0.0.5" →
        ((fun w => if w = 3 then Conn.mk 3 true false
            else Conn.mk 1 true false) e.2.ws).readyState = wsOPEN →
        (sendAlertToLocalClients
            (fun w => if w = 3 then Conn.mk 3 true false
              else Conn.mk 1 true false) "10.0.0.5" (42 : Nat)
            [("d1", ClientData.mk 1 "10.0.0.5"),
             ("d2", ClientData.mk 2 "9.9.9.9"),
             ("d3", ClientData.mk 3 "10.0.0.5")]).count
          (e.1, e.2.ws, (42 : Nat)) = 1) ∧
      (∀ e ∈ ([("d1", ClientData.mk 1 "10.0.0.5"),
          ("d2", ClientData.mk 2 "9.9.9.9"),
          ("d3", ClientData.mk 3 "10.0.0.5")] : Registry),
        (e.2.ip ≠ "10.0.0.5" ∨
          ((fun w => if w = 3 then Conn.mk 3 true false
              else Conn.mk 1 true false) e.2.ws).readyState ≠ wsOPEN) →
        ∀ s ∈ sendAlertToLocalClients
            (fun w => if w = 3 then Conn.mk 3 true false
              else Conn.mk 1 true false) "10.0.0.5" (42 : Nat)
            [("d1", ClientData.mk 1 "10.0.0.5"),
             ("d2", ClientData.mk 2 "9.9.9.9"),
             ("d3", ClientData.mk 3 "10.0.0.5")], s.1 ≠ e.1) ∧
      (∀ s ∈ sendAlertToLocalClients
          (fun w => if w = 3 then Conn.mk 3 true false
            else Conn.mk 1 true false) "10.0.0.5" (42 : Nat)
          [("d1", ClientData.mk 1 "10.0.0.5"),
           ("d2", ClientData.mk 2 "9.9.9.9"),
           ("d3", ClientData.mk 3 "10.0.0.5")],
        s.2.2 = (42 : Nat))) :=
  ⟨by simp [nodupKeys],
    fanout_exactly_once
      (fun w => if w = 3 then Conn.mk 3 true false
        else Conn.mk 1 true false)
      [("d1", ClientData.mk 1 "10.0.0.5"),
       ("d2", ClientData.mk 2 "9.9.9.9"),
       ("d3", ClientData.mk 3 "10.0.0.5")]
      "10.0.0.5" (42 : Nat) (by simp [nodupKeys])⟩

end AlertSys
